import Mathlib

/-!
Shallow embedding of the finit sources for verification:
  * `src/src/iwatch.c`  -- inotify path watcher
  * `src/conf.c`        -- finit.conf parser
  * `src/src/finit.c`   -- sulogin/fsck/fsck_all, bootstrap_worker, telinit/main

External effects (filesystem, inotify, fork/exec, malloc) are represented by
explicit environment records of oracles, so every definition is executable.
-/

/-! ## Path watcher, from `src/src/iwatch.c` -/

/-- One node of the `iwp_list` tail queue: `struct iwatch_path` with its
`path` (strdup'ed file name) and inotify watch descriptor `wd`
(`src/src/iwatch.c`, via `iwatch.h`). -/
structure IWatchPath where
  path : String
  wd : Int
deriving DecidableEq, Repr

/-- The `struct iwatch` state: inotify fd plus the `iwp_list` tail queue.
`TAILQ_INSERT_HEAD` corresponds to consing at the front of `iwp_list`. -/
structure IWatch where
  fd : Int
  iwp_list : List IWatchPath
deriving DecidableEq, Repr

/-- Oracles for the externally visible outcomes inside `iwatch_add`
(iwatch.c:74-115): whether `fexist(file)` holds, whether `strdup` succeeds,
the result of `inotify_add_watch` (`none` models a negative return), and
whether the `malloc` of the new `struct iwatch_path` succeeds. -/
structure AddEnv where
  fexist : Bool
  strdupOk : Bool
  addWatchWd : Option Int
  mallocOk : Bool

/-- Model of `iwatch_add` (iwatch.c:74-115).  The C global `static int initialized`
is passed explicitly.  Returns the C return value and the new watcher state.
Pointer identity of the queue nodes is irrelevant to the claims, so the list
of (path, wd) pairs stands for the tail queue. -/
def iwatch_add (env : AddEnv) (initialized : Bool) (iw : IWatch) (file : String) :
    Int × IWatch :=
  if !initialized then (-1, iw)
  else if !env.fexist then (0, iw)
  else if !env.strdupOk then (-1, iw)
  else
    match env.addWatchWd with
    | none => (-1, iw)
    | some wd =>
      if !env.mallocOk then (-1, iw)
      else (0, { iw with iwp_list := ⟨file, wd⟩ :: iw.iwp_list })

/-- Model of `iwatch_del` (iwatch.c:117-130): guarded by `initialized`, removes the
given node from the queue and returns 0. -/
def iwatch_del (initialized : Bool) (iw : IWatch) (iwp : IWatchPath) : Int × IWatch :=
  if !initialized then (-1, iw)
  else (0, { iw with iwp_list := iw.iwp_list.erase iwp })

/-- Model of `iwatch_find_by_wd` (iwatch.c:132-145): `NULL` is modelled as `none`. -/
def iwatch_find_by_wd (initialized : Bool) (iw : IWatch) (wd : Int) : Option IWatchPath :=
  if !initialized then none
  else iw.iwp_list.find? (fun p => p.wd == wd)

/-- Model of `iwatch_find_by_path` (iwatch.c:147-160): `NULL` is modelled as `none`. -/
def iwatch_find_by_path (initialized : Bool) (iw : IWatch) (path : String) :
    Option IWatchPath :=
  if !initialized then none
  else iw.iwp_list.find? (fun p => p.path == path)

/-- Model of `iwatch_init` (iwatch.c:40-57): `fd` is the `inotify_init1` result oracle.
Returns (C return value, new `initialized` flag, new watcher).  The `!iw`
NULL-pointer guard has no counterpart since states are passed by value. -/
def iwatch_init (fd : Int) (iw : IWatch) : Int × Bool × IWatch :=
  if fd < 0 then (-1, false, { iw with iwp_list := [] })
  else (fd, true, { fd := fd, iwp_list := [] })

/-- Model of `iwatch_exit` (iwatch.c:59-72): frees every entry and clears
`initialized`.  Returns the new `initialized` flag and watcher. -/
def iwatch_exit (iw : IWatch) : Bool × IWatch :=
  (false, { iw with iwp_list := [] })

/-- Concrete environment in which the file does not exist at `add` time. -/
def addEnvGone : AddEnv :=
  { fexist := false, strdupOk := true, addWatchWd := some 5, mallocOk := true }

/-- Concrete environment in which every step of `iwatch_add` succeeds. -/
def addEnvOk : AddEnv :=
  { fexist := true, strdupOk := true, addWatchWd := some 5, mallocOk := true }

/-- A watcher state that already holds a watch for `/etc/foo`. -/
def iwStale : IWatch := { fd := 3, iwp_list := [⟨"/etc/foo", 1⟩] }

/-! ## Configuration parser, from `src/conf.c`

Configuration lines are modelled as lists of characters (the C strings after
`chomp` removed the trailing newline). -/

/-- A configuration line / C string. -/
abbrev Str := List Char

/-- The `isblank` predicate from ctype.h: space or horizontal tab. -/
def isblankCh (c : Char) : Bool := c == ' ' || c == '\t'

/-- The `isspace` predicate from ctype.h, as used by `strtoll` inside `strtonum`. -/
def isspaceCh (c : Char) : Bool :=
  c == ' ' || c == '\t' || c == '\n' || c == '\x0b' || c == '\x0c' || c == '\r'

/-- The `isdigit` predicate from ctype.h. -/
def isdigitCh (c : Char) : Bool := 48 ≤ c.toNat && c.toNat ≤ 57

/-- Model of `strip_line` (conf.c:35-50): skip leading blanks, then truncate the
string at the first `#`. -/
def strip_line (line : Str) : Str :=
  (line.dropWhile isblankCh).takeWhile (fun c => c != '#')

/-- Model of `!strncmp(l, c, strlen(c))`: the first argument (the keyword) is a
prefix of the second.  Recursion is on the keyword so that a match against a
line with an abstract tail still computes. -/
def strncmpEq : Str → Str → Bool
  | [], _ => true
  | _ :: _, [] => false
  | c :: cs, l :: ls => c == l && strncmpEq cs ls

/-- The Boolean half of `MATCH_CMD(l, c, x)` (conf.c:32-33). -/
def matchCmd (line kw : Str) : Bool := strncmpEq kw line

/-- The binding half of `MATCH_CMD`: `x = l + strlen(c)`. -/
def matchArg (line kw : Str) : Str := line.drop kw.length

/-- Keyword `"#"` (conf.c:75). -/
def kwComment : Str := ['#']
/-- Keyword `"check "` (conf.c:80). -/
def kwCheck : Str := ['c', 'h', 'e', 'c', 'k', ' ']
/-- Keyword `"user "` (conf.c:90). -/
def kwUser : Str := ['u', 's', 'e', 'r', ' ']
/-- Keyword `"host "` (conf.c:95). -/
def kwHost : Str := ['h', 'o', 's', 't', ' ']
/-- Keyword `"module "` (conf.c:101). -/
def kwModule : Str := ['m', 'o', 'd', 'u', 'l', 'e', ' ']
/-- Keyword `"mknod "` (conf.c:110). -/
def kwMknod : Str := ['m', 'k', 'n', 'o', 'd', ' ']
/-- Keyword `"network "` (conf.c:120). -/
def kwNetwork : Str := ['n', 'e', 't', 'w', 'o', 'r', 'k', ' ']
/-- Keyword `"runparts "` (conf.c:125). -/
def kwRunparts : Str := ['r', 'u', 'n', 'p', 'a', 'r', 't', 's', ' ']
/-- Keyword `"startx "` (conf.c:130). -/
def kwStartx : Str := ['s', 't', 'a', 'r', 't', 'x', ' ']
/-- Keyword `"shutdown "` (conf.c:134). -/
def kwShutdown : Str := ['s', 'h', 'u', 't', 'd', 'o', 'w', 'n', ' ']
/-- Keyword `"runlevel "` (conf.c:144). -/
def kwRunlevel : Str := ['r', 'u', 'n', 'l', 'e', 'v', 'e', 'l', ' ']
/-- Keyword `"service "` (conf.c:158). -/
def kwService : Str := ['s', 'e', 'r', 'v', 'i', 'c', 'e', ' ']
/-- Keyword `"task "` (conf.c:165). -/
def kwTask : Str := ['t', 'a', 's', 'k', ' ']
/-- Keyword `"run "` (conf.c:171). -/
def kwRun : Str := ['r', 'u', 'n', ' ']
/-- Keyword `"console "` (conf.c:176). -/
def kwConsole : Str := ['c', 'o', 'n', 's', 'o', 'l', 'e', ' ']
/-- Keyword `"tty "` (conf.c:181). -/
def kwTty : Str := ['t', 't', 'y', ' ']

/-- BSD `strtonum(numstr, minval, maxval, &errstr)` restricted to base 10 as
`strtoll` uses it: skip leading white space, accept one optional sign, then
decimal digits consuming the whole remainder; fail (`errstr` set, modelled
as `none`) on an empty/garbled number or a value outside
`[minval, maxval]`. -/
def strtonum (s : Str) (minval maxval : Int) : Option Int :=
  let t := s.dropWhile isspaceCh
  let p : Bool × Str :=
    match t with
    | '-' :: r => (true, r)
    | '+' :: r => (false, r)
    | _ => (false, t)
  if p.2.isEmpty || !p.2.all isdigitCh then none
  else
    let n : Nat := p.2.foldl (fun a c => a * 10 + (c.toNat - 48)) 0
    let v : Int := if p.1 then -(n : Int) else (n : Int)
    if minval ≤ v ∧ v ≤ maxval then some v else none

/-- The fallback clamp of the parsed runlevel (conf.c:150-151): anything
outside 1..9, and the reserved reboot level 6, falls back to 2. -/
def runlevel_clamp (lvl : Int) : Int :=
  if lvl < 1 ∨ lvl > 9 ∨ lvl = 6 then 2 else lvl

/-- The value stored into `cfglevel` by the `runlevel` directive
(conf.c:144-153): `strtonum(token, 1, 9)`, on error the compiled-in
`RUNLEVEL` default (kept abstract as a parameter), then the clamp. -/
def runlevel_value (RUNLEVEL : Int) (token : Str) : Int :=
  runlevel_clamp ((strtonum token 1 9).getD RUNLEVEL)

/-- The three `svc_register` command kinds reachable from `parse_finit_conf`
(`SVC_CMD_SERVICE`, `SVC_CMD_TASK`, `SVC_CMD_RUN`). -/
inductive SvcKind where
  | SERVICE
  | TASK
  | RUN
deriving DecidableEq, Repr

/-- The externally visible action a single `parse_finit_conf` loop iteration
takes for one line (conf.c:67-187), carrying exactly the string handed to
the underlying call: `run_interactive` targets get their `strip_line`d
argument, `svc_register` for `service`/`task`/`run` gets the raw `x`. -/
inductive ConfEffect where
  | skipComment
  | check (dev : Str)
  | setUser (u : Str)
  | setHost (h : Str)
  | loadModule (m : Str)
  | mknod (d : Str)
  | setNetwork (n : Str)
  | setRunparts (d : Str)
  | startx (s : Str)
  | setShutdown (c : Str)
  | setRunlevel (v : Int)
  | svcRegister (kind : SvcKind) (spec : Str)
  | setConsole (c : Str)
  | ttyAdd (t : Str) (baud : Nat)
  | ignored
deriving DecidableEq, Repr

/-- One iteration of the `parse_finit_conf` line loop (conf.c:67-187), with
the `MATCH_CMD` tests in source order.  `RUNLEVEL` is the compiled-in
default used on a `strtonum` error. -/
def parse_conf_line (RUNLEVEL : Int) (line : Str) : ConfEffect :=
  if matchCmd line kwComment then .skipComment
  else if matchCmd line kwCheck then .check (strip_line (matchArg line kwCheck))
  else if matchCmd line kwUser then .setUser (strip_line (matchArg line kwUser))
  else if matchCmd line kwHost then .setHost (strip_line (matchArg line kwHost))
  else if matchCmd line kwModule then .loadModule (strip_line (matchArg line kwModule))
  else if matchCmd line kwMknod then .mknod (strip_line (matchArg line kwMknod))
  else if matchCmd line kwNetwork then .setNetwork (strip_line (matchArg line kwNetwork))
  else if matchCmd line kwRunparts then .setRunparts (strip_line (matchArg line kwRunparts))
  else if matchCmd line kwStartx then .startx (strip_line (matchArg line kwStartx))
  else if matchCmd line kwShutdown then .setShutdown (strip_line (matchArg line kwShutdown))
  else if matchCmd line kwRunlevel then
    .setRunlevel (runlevel_value RUNLEVEL (strip_line (matchArg line kwRunlevel)))
  else if matchCmd line kwService then .svcRegister .SERVICE (matchArg line kwService)
  else if matchCmd line kwTask then .svcRegister .TASK (matchArg line kwTask)
  else if matchCmd line kwRun then .svcRegister .RUN (matchArg line kwRun)
  else if matchCmd line kwConsole then .setConsole (strip_line (matchArg line kwConsole))
  else if matchCmd line kwTty then .ttyAdd (strip_line (matchArg line kwTty)) 115200
  else .ignored

/-! ## Boot-time filesystem check, from `src/src/finit.c` -/

/-- Oracles for `sulogin` (finit.c:113-144): the `_PATH_SULOGIN` compile
constant, `which` path lookup, `access(path, X_OK) == 0`, and the exit code
of `systemf("%s", path)` (the recovery shell). -/
structure SuloginEnv where
  path_sulogin : String
  which : String → Option String
  xok : String → Bool
  systemf : String → Int

/-- The `EX_OSFILE` constant from sysexits.h, the initial `rc` in `sulogin`. -/
def EX_OSFILE : Int := 72

/-- The candidate loop of `sulogin` (finit.c:122-136): first runnable
candidate is executed and its exit code kept; with no runnable candidate
`rc` stays `EX_OSFILE`. -/
def sulogin_try (env : SuloginEnv) : List String → Int
  | [] => EX_OSFILE
  | c :: cs =>
    match env.which c with
    | none => sulogin_try env cs
    | some p => if env.xok p then env.systemf p else sulogin_try env cs

/-- What the caller of `sulogin` observes. -/
inductive SuloginResult where
  | rebooted (rc : Int)
  | returned (rc : Int)
deriving DecidableEq, Repr

/-- Model of `sulogin(do_reboot)` (finit.c:113-144): run the recovery shell loop over
`{_PATH_SULOGIN, "sulogin"}`; with `do_reboot` set it then calls
`do_shutdown(SHUT_REBOOT)` and `exit(rc)` -- the system reboots -- otherwise
it returns `rc`. -/
def sulogin (env : SuloginEnv) (do_reboot : Bool) : SuloginResult :=
  if do_reboot then .rebooted (sulogin_try env [env.path_sulogin, "sulogin"])
  else .returned (sulogin_try env [env.path_sulogin, "sulogin"])

/-- The `struct mntent` record as read by `getmntent_r` (finit.c:211-219). -/
structure Mntent where
  mnt_fsname : String
  mnt_dir : String
  mnt_type : String
  mnt_opts : String
  mnt_freq : Int
  mnt_passno : Int
deriving DecidableEq, Repr

/-- Environment for `fsck`/`fsck_all` (finit.c:196-294): the sulogin
oracles, whether `setmntent(fstab, "r")` succeeds, the fstab entries, and
per-device oracles: `stat(dev) == 0 && S_ISBLK`, the `fs_root_dev`
resolution of `/dev/root`, `ismnt("/proc/mounts", dir, "rw")`, and the exit
code of `run_interactive("fsck -a dev")`. -/
structure FsckEnv where
  su : SuloginEnv
  fstabOk : Bool
  entries : List Mntent
  statBlk : String → Bool
  rootDev : Option String
  mountedRw : String → Bool
  fsckExit : String → Nat

/-- The device `fsck` would pass to the fsck command for one entry, or
`none` when the entry is skipped by the block-device logic
(finit.c:227-250): a stat-able block device is used as is; otherwise
`UUID=`/`LABEL=` specs (`string_match` is a prefix test) are kept, and
`/dev/root` (`string_compare` is an equality test) is replaced by the
`fs_root_dev` resolution when one exists; everything else is skipped. -/
def fsck_dev (env : FsckEnv) (m : Mntent) : Option String :=
  if env.statBlk m.mnt_fsname then some m.mnt_fsname
  else if "UUID=".isPrefixOf m.mnt_fsname || "LABEL=".isPrefixOf m.mnt_fsname then
    some m.mnt_fsname
  else if m.mnt_fsname == "/dev/root" then env.rootDev
  else none

/-- Whether one fstab entry is checked in the given pass and with which
result (finit.c:221-263): entries with `mnt_passno == 0` or a passno other
than the current pass are skipped, then the device skip logic and the
already-mounted-rw test apply; otherwise the fsck command runs and its exit
code is reported. -/
def entryCheck (env : FsckEnv) (pass : Int) (m : Mntent) : Option (String × Nat) :=
  if m.mnt_passno == 0 || m.mnt_passno != pass then none
  else
    match fsck_dev env m with
    | none => none
    | some dev =>
      if env.mountedRw m.mnt_dir then none
      else some (dev, env.fsckExit dev)

/-- Result of one `fsck` pass: either the summed return code with the boot
proceeding, or single-user recovery. -/
inductive FsckResult where
  | proceed (rc : Nat)
  | recovery (r : SuloginResult)
deriving DecidableEq, Repr

/-- The `getmntent_r` loop of `fsck` (finit.c:211-274) over the remaining
entries with the accumulated `rc`: each checked entry's exit code is added
to `rc`, except that an exit code of 2 or larger aborts into `sulogin(1)`.
Also returns the trace of (device, exit code) pairs actually checked. -/
def fsck_loop (env : FsckEnv) (pass : Int) :
    List Mntent → Nat → List (String × Nat) × FsckResult
  | [], rc => ([], .proceed rc)
  | m :: ms, rc =>
    match entryCheck env pass m with
    | none => fsck_loop env pass ms rc
    | some (dev, e) =>
      if e > 1 then ([(dev, e)], .recovery (sulogin env.su true))
      else
        let r := fsck_loop env pass ms (rc + e)
        ((dev, e) :: r.1, r.2)

/-- Model of `fsck(pass)` (finit.c:196-279): a failed `setmntent` goes straight to
`sulogin(1)`; otherwise the entry loop runs with `rc = 0`. -/
def fsck (env : FsckEnv) (pass : Int) : List (String × Nat) × FsckResult :=
  if env.fstabOk then fsck_loop env pass env.entries 0
  else ([], .recovery (sulogin env.su true))

/-- The pass loop of `fsck_all` (finit.c:281-294) over the remaining pass
numbers: `rc = fsck(pass); if (rc) break;`.  Returns the trace of
(pass, device, exit code) triples checked, and the final result.  This
models the default `#ifndef FAST_BOOT` build. -/
def fsck_all_go (env : FsckEnv) : List Int → List (Int × String × Nat) × FsckResult
  | [] => ([], .proceed 0)
  | p :: ps =>
    let r := fsck env p
    let tagged := r.1.map (fun de => (p, de.1, de.2))
    match r.2 with
    | .proceed rc =>
      if rc != 0 then (tagged, .proceed rc)
      else
        let r2 := fsck_all_go env ps
        (tagged ++ r2.1, r2.2)
    | .recovery a => (tagged, .recovery a)

/-- Model of `fsck_all` (finit.c:281-294): `for (pass = 1; pass < 10; pass++)`. -/
def fsck_all (env : FsckEnv) : List (Int × String × Nat) × FsckResult :=
  fsck_all_go env [1, 2, 3, 4, 5, 6, 7, 8, 9]

/-! ## Bootstrap wait, from `src/src/finit.c` -/

/-- The value of `bootstrap_work.delay` in `main` (finit.c:721-724): the bootstrap wait
work item is scheduled with a 100 ms period, and `bootstrap_worker`
re-schedules the same item. -/
def bootstrap_work_delay : Nat := 100

/-- The initial value of the static counter in `bootstrap_worker`
(finit.c:580): `120 * 10`, i.e. 120 s at the 100 ms period. -/
def bootstrap_cnt : Nat := 120 * 10

/-- The scheduling skeleton of `bootstrap_worker` (finit.c:574-629).
`completed i` is the answer of `service_completed()` at the i-th poll.  An
invocation with counter `cnt` evaluates `cnt-- > 0 && !service_completed()`:
with `cnt = 0` it schedules the `finalize` work item without polling; with a
positive counter it polls, re-scheduling itself on a negative answer and
scheduling `finalize` on a positive one.  Returns (number of invocations up
to and including the one that schedules `finalize`, number of
`service_completed()` polls made). -/
def bootstrap_worker (completed : Nat → Bool) : Nat → Nat → Nat × Nat
  | _, 0 => (1, 0)
  | i, c + 1 =>
    if completed i then (1, 1)
    else
      let r := bootstrap_worker completed (i + 1) c
      (r.1 + 1, r.2 + 1)

/-! ## telinit mode, from `src/src/finit.c` -/

/-- What the positional-argument dispatch of `telinit` (finit.c:693-712)
does: invoke `systemf` on an initctl command line, or fall through to
`usage(1)`. -/
inductive TelinitAct where
  | system (cmd : String)
  | usage1
deriving DecidableEq, Repr

/-- The positional-argument dispatch of `telinit` (finit.c:693-712), after
getopt has consumed the ignored compat options: `req` is the first character
of the first positional argument; digits and `s`/`S` become
`initctl -b runlevel <req>`, `q`/`Q` becomes `initctl -b reload`, anything
else (including no positional argument) falls through to `usage(1)`. -/
def telinit (arg : Option String) : TelinitAct :=
  match arg with
  | none => .usage1
  | some a =>
    match a.toList with
    | [] => .usage1
    | req :: _ =>
      if isdigitCh req then .system ("initctl -b runlevel " ++ req.toString)
      else if req == 'q' || req == 'Q' then .system "initctl -b reload"
      else if req == 's' || req == 'S' then .system ("initctl -b runlevel " ++ req.toString)
      else .usage1

/-- The exit code of `telinit`: the `systemf` result for a dispatched
command, `usage(1) = 1` otherwise. -/
def telinit_exit (sf : String → Int) (arg : Option String) : Int :=
  match telinit arg with
  | .system c => sf c
  | .usage1 => 1

/-- The PID-1 guard of `main` (finit.c:727-729): with PID other than 1 the
process runs `telinit` and exits with its code (`some code`); as PID 1 it
boots the system instead (`none`). -/
def finit_main (sf : String → Int) (pid : Nat) (arg : Option String) : Option Int :=
  if pid != 1 then some (telinit_exit sf arg) else none

/-! ## Concrete environments used by witnesses and counterexamples -/

/-- A sulogin environment with no runnable recovery shell. -/
def suEnv0 : SuloginEnv :=
  { path_sulogin := "/sbin/sulogin", which := fun _ => none,
    xok := fun _ => false, systemf := fun _ => 0 }

/-- A one-entry fstab whose single device checks clean (exit code 0) on
pass 3. -/
def fsckEnvClean : FsckEnv :=
  { su := suEnv0, fstabOk := true,
    entries := [⟨"/dev/sda1", "/", "ext4", "defaults", 0, 3⟩],
    statBlk := fun _ => true, rootDev := none,
    mountedRw := fun _ => false, fsckExit := fun _ => 0 }

/-- A one-entry fstab whose single device fails its check with exit code 2
on pass 1. -/
def fsckEnvBad : FsckEnv :=
  { su := suEnv0, fstabOk := true,
    entries := [⟨"/dev/sda1", "/", "ext4", "defaults", 0, 1⟩],
    statBlk := fun _ => true, rootDev := none,
    mountedRw := fun _ => false, fsckExit := fun _ => 2 }

/-! ## Theorems about the path watcher -/

/-- Claim C9: every watcher operation invoked while `initialized` is unset
(before a successful `iwatch_init`, or after `iwatch_exit`) fails without
mutating the watcher: `iwatch_add` and `iwatch_del` return -1 with the state
unchanged, and both find operations return `none` (NULL).  Moreover
`iwatch_exit` clears the flag and a failed `iwatch_init` leaves it unset. -/
theorem iwatch_uninitialized_noop (env : AddEnv) (iw : IWatch) (file : String)
    (iwp : IWatchPath) (wd : Int) (path : String) :
    iwatch_add env false iw file = (-1, iw) ∧
    iwatch_del false iw iwp = (-1, iw) ∧
    iwatch_find_by_wd false iw wd = none ∧
    iwatch_find_by_path false iw path = none ∧
    (iwatch_exit iw).1 = false ∧
    (∀ fd : Int, fd < 0 → (iwatch_init fd iw).2.1 = false) := by
  refine ⟨rfl, rfl, rfl, rfl, rfl, ?_⟩
  intro fd hfd
  simp [iwatch_init, hfd]

/-- Claim C9 witness: a failed `iwatch_init` (negative inotify fd) leaves the
watcher uninitialized. -/
theorem iwatch_uninitialized_noop_witness :
    (iwatch_init (-1) { fd := 0, iwp_list := [] }).2.1 = false :=
  (iwatch_uninitialized_noop addEnvOk { fd := 0, iwp_list := [] } "f" ⟨"f", 0⟩ 0
    "f").2.2.2.2.2 (-1) (by decide)

/-- Exhaustive case analysis of `iwatch_add` (iwatch.c:74-115): every run
either fails with -1 and an unchanged state, succeeds trivially with 0 on a
missing path, or succeeds with 0 and prepends one entry. -/
theorem iwatch_add_cases (env : AddEnv) (initialized : Bool) (iw : IWatch)
    (file : String) :
    iwatch_add env initialized iw file = (-1, iw) ∨
    (iwatch_add env initialized iw file = (0, iw) ∧ env.fexist = false) ∨
    (∃ wd, env.fexist = true ∧
      iwatch_add env initialized iw file =
        (0, { iw with iwp_list := ⟨file, wd⟩ :: iw.iwp_list })) := by
  rcases initialized with _ | _
  · exact Or.inl (by simp [iwatch_add])
  · rcases hex : env.fexist with _ | _
    · exact Or.inr (Or.inl ⟨by simp [iwatch_add, hex], rfl⟩)
    · rcases hsd : env.strdupOk with _ | _
      · exact Or.inl (by simp [iwatch_add, hex, hsd])
      · rcases haw : env.addWatchWd with _ | wd
        · exact Or.inl (by simp [iwatch_add, hex, hsd, haw])
        · rcases hm : env.mallocOk with _ | _
          · exact Or.inl (by simp [iwatch_add, hex, hsd, haw, hm])
          · exact Or.inr (Or.inr ⟨wd, rfl, by simp [iwatch_add, hex, hsd, haw, hm]⟩)

/-- Claim C10: `iwatch_add` is atomic on failure.  Whenever it returns -1
(uninitialized watcher, strdup/malloc failure, or inotify registration
failure) or returns 0 for a missing path, the path list is exactly as before
the call, and a new entry is prepended if and only if the call returns 0 for
an existing path. -/
theorem iwatch_add_atomic (env : AddEnv) (initialized : Bool) (iw : IWatch)
    (file : String) :
    ((iwatch_add env initialized iw file).1 = -1 →
      (iwatch_add env initialized iw file).2 = iw) ∧
    ((iwatch_add env initialized iw file).1 = 0 → env.fexist = false →
      (iwatch_add env initialized iw file).2 = iw) ∧
    ((∃ wd, (iwatch_add env initialized iw file).2.iwp_list =
        ⟨file, wd⟩ :: iw.iwp_list) ↔
      ((iwatch_add env initialized iw file).1 = 0 ∧ env.fexist = true)) := by
  rcases iwatch_add_cases env initialized iw file with h | ⟨h, hex⟩ | ⟨wd, hex, h⟩
  · refine ⟨fun _ => by rw [h], fun h0 _ => ?_, ?_⟩
    · rw [h] at h0; simp at h0
    · rw [h]
      constructor
      · rintro ⟨w, hw⟩
        exact absurd hw.symm (List.cons_ne_self _ _)
      · rintro ⟨h0, _⟩
        simp at h0
  · refine ⟨fun h0 => ?_, fun _ _ => by rw [h], ?_⟩
    · rw [h] at h0; simp at h0
    · rw [h]
      constructor
      · rintro ⟨w, hw⟩
        exact absurd hw.symm (List.cons_ne_self _ _)
      · rintro ⟨_, hfx⟩
        rw [hex] at hfx
        cases hfx
  · refine ⟨fun h0 => ?_, fun _ hfx => ?_, ?_⟩
    · rw [h] at h0; simp at h0
    · rw [hex] at hfx; cases hfx
    · rw [h]
      exact ⟨fun _ => ⟨rfl, hex⟩, fun _ => ⟨wd, rfl⟩⟩

/-- Claim C10 witness: a fully successful `iwatch_add` on an existing path
prepends exactly one entry for that path. -/
theorem iwatch_add_atomic_witness :
    ∃ wd, (iwatch_add addEnvOk true { fd := 3, iwp_list := [] } "/x").2.iwp_list =
      [⟨"/x", wd⟩] :=
  (iwatch_add_atomic addEnvOk true { fd := 3, iwp_list := [] } "/x").2.2.mpr
    ⟨rfl, rfl⟩

/-- Claim C7 counterexample: with a watch for `/etc/foo` already installed
and the file since removed from disk, `iwatch_add` returns 0 and leaves the
list unchanged, yet a subsequent `iwatch_find_by_path` for that path does
NOT return nothing -- it finds the stale entry. -/
theorem iwatch_add_missing_find_cex :
    iwatch_add addEnvGone true iwStale "/etc/foo" = (0, iwStale) ∧
    iwatch_find_by_path true iwStale "/etc/foo" ≠ none := by
  constructor
  · rfl
  · decide

/-- Claim C7 (amended): if the path does not exist at `add` time and the
watcher is initialized, `iwatch_add` returns 0 and installs no watch: the
list is unchanged, `iwatch_find_by_path` gives the same answer as before the
call, and in particular returns nothing when no watch for that path was
installed before the call. -/
theorem iwatch_add_missing_path (env : AddEnv) (initialized : Bool) (iw : IWatch)
    (file : String) (hex : env.fexist = false) (hinit : initialized = true) :
    iwatch_add env initialized iw file = (0, iw) ∧
    iwatch_find_by_path initialized (iwatch_add env initialized iw file).2 file =
      iwatch_find_by_path initialized iw file ∧
    (iwatch_find_by_path initialized iw file = none →
      iwatch_find_by_path initialized (iwatch_add env initialized iw file).2 file =
        none) := by
  subst hinit
  have h : iwatch_add env true iw file = (0, iw) := by
    unfold iwatch_add
    simp [hex]
  exact ⟨h, by rw [h], by rw [h]; exact fun hn => hn⟩

/-- Claim C7 witness: adding a missing path on a fresh watcher returns 0 and
a lookup afterwards finds nothing. -/
theorem iwatch_add_missing_path_witness :
    iwatch_add addEnvGone true { fd := 3, iwp_list := [] } "/x" =
      (0, { fd := 3, iwp_list := [] }) ∧
    iwatch_find_by_path true
      (iwatch_add addEnvGone true { fd := 3, iwp_list := [] } "/x").2 "/x" = none := by
  have h := iwatch_add_missing_path addEnvGone true { fd := 3, iwp_list := [] } "/x"
    rfl rfl
  exact ⟨h.1, h.2.2 (by decide)⟩

/-! ## Theorems about the configuration parser -/

/-- The clamp at conf.c:150-151 always lands in 1..9 and never on 6. -/
theorem runlevel_clamp_ok (lvl : Int) :
    1 ≤ runlevel_clamp lvl ∧ runlevel_clamp lvl ≤ 9 ∧ runlevel_clamp lvl ≠ 6 := by
  unfold runlevel_clamp
  split <;> omega

/-- Claim C3: for every argument string, processing a `runlevel` directive
stores `runlevel_value` into `cfglevel`, and that value is always in the
legal range 1..9 and never equal to 6, whatever the compiled-in `RUNLEVEL`
default is. -/
theorem runlevel_directive_clamped (RUNLEVEL : Int) (rest : Str) :
    parse_conf_line RUNLEVEL (kwRunlevel ++ rest) =
      ConfEffect.setRunlevel (runlevel_value RUNLEVEL (strip_line rest)) ∧
    1 ≤ runlevel_value RUNLEVEL (strip_line rest) ∧
    runlevel_value RUNLEVEL (strip_line rest) ≤ 9 ∧
    runlevel_value RUNLEVEL (strip_line rest) ≠ 6 :=
  ⟨rfl, runlevel_clamp_ok _⟩

/-- Claim C5 counterexample: a `service` line with leading blanks and a `#`
in its argument is registered with the raw remainder of the line -- the
comment text is kept and the leading whitespace is not stripped, so
stripping does not happen for every recognized directive. -/
theorem conf_service_comment_cex :
    parse_conf_line 2 ("service   /bin/foo # not stripped".toList) =
      ConfEffect.svcRegister SvcKind.SERVICE ("  /bin/foo # not stripped".toList) ∧
    strip_line ("  /bin/foo # not stripped".toList) ≠
      ("  /bin/foo # not stripped".toList) := by
  constructor
  · rfl
  · decide

/-- Claim C5 (amended): for every recognized directive except `service`,
`task` and `run`, the argument is `strip_line` of the remainder of the line:
leading whitespace removed and everything from the first `#` on discarded.
The `service`, `task` and `run` directives instead pass the raw remainder of
the line to `svc_register`, comment text and leading whitespace included. -/
theorem conf_argument_stripping (RUNLEVEL : Int) (rest : Str) :
    parse_conf_line RUNLEVEL (kwCheck ++ rest) = ConfEffect.check (strip_line rest) ∧
    parse_conf_line RUNLEVEL (kwUser ++ rest) = ConfEffect.setUser (strip_line rest) ∧
    parse_conf_line RUNLEVEL (kwHost ++ rest) = ConfEffect.setHost (strip_line rest) ∧
    parse_conf_line RUNLEVEL (kwModule ++ rest) =
      ConfEffect.loadModule (strip_line rest) ∧
    parse_conf_line RUNLEVEL (kwMknod ++ rest) = ConfEffect.mknod (strip_line rest) ∧
    parse_conf_line RUNLEVEL (kwNetwork ++ rest) =
      ConfEffect.setNetwork (strip_line rest) ∧
    parse_conf_line RUNLEVEL (kwRunparts ++ rest) =
      ConfEffect.setRunparts (strip_line rest) ∧
    parse_conf_line RUNLEVEL (kwStartx ++ rest) = ConfEffect.startx (strip_line rest) ∧
    parse_conf_line RUNLEVEL (kwShutdown ++ rest) =
      ConfEffect.setShutdown (strip_line rest) ∧
    parse_conf_line RUNLEVEL (kwRunlevel ++ rest) =
      ConfEffect.setRunlevel (runlevel_value RUNLEVEL (strip_line rest)) ∧
    parse_conf_line RUNLEVEL (kwConsole ++ rest) =
      ConfEffect.setConsole (strip_line rest) ∧
    parse_conf_line RUNLEVEL (kwTty ++ rest) =
      ConfEffect.ttyAdd (strip_line rest) 115200 ∧
    parse_conf_line RUNLEVEL (kwService ++ rest) =
      ConfEffect.svcRegister SvcKind.SERVICE rest ∧
    parse_conf_line RUNLEVEL (kwTask ++ rest) = ConfEffect.svcRegister SvcKind.TASK rest ∧
    parse_conf_line RUNLEVEL (kwRun ++ rest) = ConfEffect.svcRegister SvcKind.RUN rest :=
  ⟨rfl, rfl, rfl, rfl, rfl, rfl, rfl, rfl, rfl, rfl, rfl, rfl, rfl, rfl, rfl⟩

/-- Claim C6: dispatch never confuses `run` and `runlevel`.  A line starting
with the keyword `runlevel` and a space goes to the runlevel handler and is
never handed to `svc_register`, while a line starting with the keyword `run`
and a space is registered as a run-kind service. -/
theorem run_runlevel_dispatch (RUNLEVEL : Int) (rest : Str) :
    parse_conf_line RUNLEVEL (kwRunlevel ++ rest) =
      ConfEffect.setRunlevel (runlevel_value RUNLEVEL (strip_line rest)) ∧
    (∀ kind spec, parse_conf_line RUNLEVEL (kwRunlevel ++ rest) ≠
      ConfEffect.svcRegister kind spec) ∧
    parse_conf_line RUNLEVEL (kwRun ++ rest) = ConfEffect.svcRegister SvcKind.RUN rest := by
  refine ⟨rfl, ?_, rfl⟩
  intro kind spec h
  have e : parse_conf_line RUNLEVEL (kwRunlevel ++ rest) =
      ConfEffect.setRunlevel (runlevel_value RUNLEVEL (strip_line rest)) := rfl
  rw [e] at h
  exact ConfEffect.noConfusion h

/-! ## Theorems about fsck and single-user recovery -/

/-- Every run of the `fsck` entry loop either proceeds with every checked
entry having exited 0 or 1, or aborts into `sulogin(1)` with some checked
entry having exited with 2 or more. -/
theorem fsck_loop_cases (env : FsckEnv) (pass : Int) (ms : List Mntent) (rc : Nat) :
    ((∃ rc2, (fsck_loop env pass ms rc).2 = FsckResult.proceed rc2) ∧
      ∀ de ∈ (fsck_loop env pass ms rc).1, de.2 ≤ 1) ∨
    ((fsck_loop env pass ms rc).2 = FsckResult.recovery (sulogin env.su true) ∧
      ∃ de ∈ (fsck_loop env pass ms rc).1, 2 ≤ de.2) := by
  induction ms generalizing rc with
  | nil => exact Or.inl ⟨⟨rc, rfl⟩, by simp [fsck_loop]⟩
  | cons m ms ih =>
    rcases hc : entryCheck env pass m with _ | ⟨dev, e⟩
    · simpa only [fsck_loop, hc] using ih rc
    · by_cases he : e > 1
      · refine Or.inr ⟨by simp [fsck_loop, hc, he], ⟨(dev, e), by simp [fsck_loop, hc, he], by omega⟩⟩
      · rcases ih (rc + e) with ⟨⟨rc2, h2⟩, hall⟩ | ⟨h2, de', hmem, hge⟩
        · refine Or.inl ⟨⟨rc2, by simp [fsck_loop, hc, he, h2]⟩, ?_⟩
          intro de hde
          simp only [fsck_loop, hc, he, if_false, List.mem_cons] at hde
          rcases hde with hde | hde
          · subst hde; omega
          · exact hall de hde
        · refine Or.inr ⟨by simp [fsck_loop, hc, he, h2], ⟨de', ?_, hge⟩⟩
          simp only [fsck_loop, hc, he, if_false, List.mem_cons]
          exact Or.inr hmem

/-- Claim C1: for every fstab entry checked during boot, an fsck exit code
of 2 or larger sends the system into single-user recovery, after which it
reboots (`sulogin(1)` runs `do_shutdown(SHUT_REBOOT)` when the recovery
shell exits); if every checked entry exits with 0 or 1 the boot proceeds. -/
theorem fsck_failure_recovery (env : FsckEnv) (pass : Int) :
    (∀ dev e, (dev, e) ∈ (fsck env pass).1 → 2 ≤ e →
      ∃ rc, (fsck env pass).2 = FsckResult.recovery (SuloginResult.rebooted rc)) ∧
    ((∀ dev e, (dev, e) ∈ (fsck env pass).1 → e ≤ 1) → env.fstabOk = true →
      ∃ rc, (fsck env pass).2 = FsckResult.proceed rc) := by
  have hsu : sulogin env.su true =
      SuloginResult.rebooted (sulogin_try env.su [env.su.path_sulogin, "sulogin"]) := rfl
  rcases hok : env.fstabOk with _ | _
  · constructor
    · intro dev e hmem _
      simp [fsck, hok] at hmem
    · intro _ h
      cases h
  · have hfsck : fsck env pass = fsck_loop env pass env.entries 0 := by
      simp [fsck, hok]
    rw [hfsck]
    rcases fsck_loop_cases env pass env.entries 0 with ⟨⟨rc2, h2⟩, hall⟩ | ⟨h2, de, hmem, hge⟩
    · constructor
      · intro dev e hmem hge
        have := hall (dev, e) hmem
        omega
      · intro _ _
        exact ⟨rc2, h2⟩
    · constructor
      · intro _ _ _ _
        exact ⟨_, by rw [h2, hsu]⟩
      · intro hall _
        have := hall de.1 de.2 (by simpa using hmem)
        omega

/-- Claim C1 witness: a device failing its pass-1 check with exit code 2
drives `fsck` into recovery followed by reboot. -/
theorem fsck_failure_recovery_witness :
    (("/dev/sda1", 2) ∈ (fsck fsckEnvBad 1).1 ∧
      ∃ rc, (fsck fsckEnvBad 1).2 = FsckResult.recovery (SuloginResult.rebooted rc)) :=
  ⟨by decide, (fsck_failure_recovery fsckEnvBad 1).1 "/dev/sda1" 2 (by decide) (by decide)⟩

/-- A checked entry's `mnt_passno` equals the current pass and is not 0
(finit.c:221-222). -/
theorem entryCheck_passno (env : FsckEnv) (pass : Int) (m : Mntent) (x : String × Nat)
    (h : entryCheck env pass m = some x) :
    m.mnt_passno = pass ∧ m.mnt_passno ≠ 0 := by
  unfold entryCheck at h
  split at h
  · exact Option.noConfusion h
  · rename_i hcond
    simp only [Bool.or_eq_true, beq_iff_eq, bne_iff_ne, ne_eq, not_or, not_not] at hcond
    exact ⟨hcond.2, hcond.1⟩

/-- Every entry in the trace of one `fsck` pass loop comes from an fstab
entry accepted by `entryCheck` for that pass. -/
theorem fsck_loop_mem (env : FsckEnv) (pass : Int) (ms : List Mntent) :
    ∀ (rc : Nat) (de : String × Nat), de ∈ (fsck_loop env pass ms rc).1 →
      ∃ m ∈ ms, entryCheck env pass m = some de := by
  induction ms with
  | nil =>
    intro rc de hde
    simp [fsck_loop] at hde
  | cons m ms ih =>
    intro rc de hde
    rcases hc : entryCheck env pass m with _ | ⟨dev, e⟩
    · simp only [fsck_loop, hc] at hde
      obtain ⟨m', hm', he'⟩ := ih rc de hde
      exact ⟨m', List.mem_cons_of_mem _ hm', he'⟩
    · by_cases hgt : e > 1
      · simp only [fsck_loop, hc, if_pos hgt, List.mem_singleton] at hde
        subst hde
        exact ⟨m, List.mem_cons_self _ _, hc⟩
      · simp only [fsck_loop, hc, if_neg hgt, List.mem_cons] at hde
        rcases hde with hde | hde
        · subst hde
          exact ⟨m, List.mem_cons_self _ _, hc⟩
        · obtain ⟨m', hm', he'⟩ := ih (rc + e) de hde
          exact ⟨m', List.mem_cons_of_mem _ hm', he'⟩

/-- Every entry in the trace of `fsck(pass)` comes from an fstab entry
accepted by `entryCheck` for that pass. -/
theorem fsck_mem (env : FsckEnv) (pass : Int) (de : String × Nat)
    (h : de ∈ (fsck env pass).1) :
    ∃ m ∈ env.entries, entryCheck env pass m = some de := by
  rcases hok : env.fstabOk with _ | _
  · simp [fsck, hok] at h
  · have e : fsck env pass = fsck_loop env pass env.entries 0 := by simp [fsck, hok]
    rw [e] at h
    exact fsck_loop_mem env pass env.entries 0 de h

/-- A constant list is sorted. -/
theorem sorted_map_const {α : Type} (l : List α) (p : Int) :
    ((l.map fun _ => p).Sorted (· ≤ ·)) := by
  induction l with
  | nil => simp
  | cons a l ih =>
    simp only [List.map_cons]
    refine List.pairwise_cons.mpr ⟨?_, ih⟩
    intro b hb
    simp only [List.mem_map] at hb
    obtain ⟨x, _, hx⟩ := hb
    omega

/-- Every triple of the `fsck_all` pass-loop trace carries a pass number
from the processed list, and a (device, exit) pair from that pass's own
trace. -/
theorem fsck_all_go_mem (env : FsckEnv) :
    ∀ ps : List Int, ∀ t ∈ (fsck_all_go env ps).1,
      t.1 ∈ ps ∧ (t.2.1, t.2.2) ∈ (fsck env t.1).1 := by
  intro ps
  induction ps with
  | nil =>
    intro t ht
    simp [fsck_all_go] at ht
  | cons p ps ih =>
    intro t ht
    have tagged_mem : t ∈ (fsck env p).1.map (fun de => (p, de.1, de.2)) →
        t.1 ∈ p :: ps ∧ (t.2.1, t.2.2) ∈ (fsck env t.1).1 := by
      intro hm
      obtain ⟨de, hde, hteq⟩ := List.mem_map.mp hm
      subst hteq
      exact ⟨List.mem_cons_self _ _, by simpa using hde⟩
    rcases hr : (fsck env p).2 with rc | a
    · rcases rc with _ | n
      · have e : (fsck_all_go env (p :: ps)).1 =
            (fsck env p).1.map (fun de => (p, de.1, de.2)) ++ (fsck_all_go env ps).1 := by
          simp [fsck_all_go, hr]
        rw [e] at ht
        rcases List.mem_append.mp ht with ht | ht
        · exact tagged_mem ht
        · obtain ⟨h1, h2⟩ := ih t ht
          exact ⟨List.mem_cons_of_mem _ h1, h2⟩
      · have e : (fsck_all_go env (p :: ps)).1 =
            (fsck env p).1.map (fun de => (p, de.1, de.2)) := by
          simp [fsck_all_go, hr]
        rw [e] at ht
        exact tagged_mem ht
    · have e : (fsck_all_go env (p :: ps)).1 =
          (fsck env p).1.map (fun de => (p, de.1, de.2)) := by
        simp [fsck_all_go, hr]
      rw [e] at ht
      exact tagged_mem ht

/-- With strictly increasing pass numbers, the pass components of the
`fsck_all` trace are non-decreasing: filesystems are checked in ascending
pass order. -/
theorem fsck_all_go_sorted (env : FsckEnv) :
    ∀ ps : List Int, ps.Pairwise (· < ·) →
      ((fsck_all_go env ps).1.map (fun t => t.1)).Sorted (· ≤ ·) := by
  intro ps
  induction ps with
  | nil =>
    intro _
    simp [fsck_all_go, List.Sorted]
  | cons p ps ih =>
    intro hps
    obtain ⟨hlt, hps'⟩ := List.pairwise_cons.mp hps
    have htag : (((fsck env p).1.map (fun de => (p, de.1, de.2))).map
        (fun t => t.1)).Sorted (· ≤ ·) := by
      simpa [List.map_map, Function.comp] using sorted_map_const (fsck env p).1 p
    rcases hr : (fsck env p).2 with rc | a
    · rcases rc with _ | n
      · have e : (fsck_all_go env (p :: ps)).1 =
            (fsck env p).1.map (fun de => (p, de.1, de.2)) ++ (fsck_all_go env ps).1 := by
          simp [fsck_all_go, hr]
        rw [e, List.map_append]
        refine List.pairwise_append.mpr ⟨htag, ih hps', ?_⟩
        intro a ha b hb
        have ha' : a = p := by
          simp only [List.map_map, List.mem_map, Function.comp] at ha
          obtain ⟨de, _, hde⟩ := ha
          omega
        obtain ⟨t, ht, hteq⟩ := List.mem_map.mp hb
        have hmem := (fsck_all_go_mem env ps t ht).1
        have hb' : p < b := by
          rw [← hteq]
          exact hlt _ hmem
        omega
      · have e : (fsck_all_go env (p :: ps)).1 =
            (fsck env p).1.map (fun de => (p, de.1, de.2)) := by
          simp [fsck_all_go, hr]
        rw [e]
        exact htag
    · have e : (fsck_all_go env (p :: ps)).1 =
          (fsck env p).1.map (fun de => (p, de.1, de.2)) := by
        simp [fsck_all_go, hr]
      rw [e]
      exact htag

/-- With strictly increasing pass numbers, any pass strictly before the
pass of a traced check must have returned `proceed 0`: the first pass with
a nonzero result halts all subsequent passes. -/
theorem fsck_all_go_halt (env : FsckEnv) :
    ∀ ps : List Int, ps.Pairwise (· < ·) →
      ∀ t ∈ (fsck_all_go env ps).1, ∀ p ∈ ps, p < t.1 →
        (fsck env p).2 = FsckResult.proceed 0 := by
  intro ps
  induction ps with
  | nil =>
    intro _ t ht
    simp [fsck_all_go] at ht
  | cons q ps ih =>
    intro hps t ht p hp hplt
    obtain ⟨hlt, hps'⟩ := List.pairwise_cons.mp hps
    have tagfst : ∀ {l : List (String × Nat)},
        t ∈ l.map (fun de => (q, de.1, de.2)) → t.1 = q := by
      intro l hm
      obtain ⟨de, _, hteq⟩ := List.mem_map.mp hm
      rw [← hteq]
    have contra : t.1 = q → False := by
      intro h1
      rcases List.mem_cons.mp hp with hpq | hp'
      · subst hpq
        rw [h1] at hplt
        exact absurd hplt (lt_irrefl _)
      · have h2 := hlt p hp'
        rw [h1] at hplt
        omega
    rcases hr : (fsck env q).2 with rc | a
    · rcases rc with _ | n
      · have e : (fsck_all_go env (q :: ps)).1 =
            (fsck env q).1.map (fun de => (q, de.1, de.2)) ++ (fsck_all_go env ps).1 := by
          simp [fsck_all_go, hr]
        rw [e] at ht
        rcases List.mem_append.mp ht with ht | ht
        · exact (contra (tagfst ht)).elim
        · rcases List.mem_cons.mp hp with hpq | hp'
          · subst hpq
            exact hr
          · exact ih hps' t ht p hp' hplt
      · have e : (fsck_all_go env (q :: ps)).1 =
            (fsck env q).1.map (fun de => (q, de.1, de.2)) := by
          simp [fsck_all_go, hr]
        rw [e] at ht
        exact (contra (tagfst ht)).elim
    · have e : (fsck_all_go env (q :: ps)).1 =
          (fsck env q).1.map (fun de => (q, de.1, de.2)) := by
        simp [fsck_all_go, hr]
      rw [e] at ht
      exact (contra (tagfst ht)).elim

/-- Claim C4: `fsck_all` checks filesystems in ascending `fs_passno` order
over passes 1 through 9, every check of the trace comes from an fstab entry
whose `mnt_passno` equals the current pass and is nonzero, and any pass
strictly before the pass of a traced check returned `proceed 0` -- the
first pass with a nonzero result halts all subsequent passes. -/
theorem fsck_all_pass_order (env : FsckEnv) :
    (∀ t ∈ (fsck_all env).1,
      (1 ≤ t.1 ∧ t.1 ≤ 9) ∧
      ∃ m ∈ env.entries, entryCheck env t.1 m = some (t.2.1, t.2.2) ∧
        m.mnt_passno = t.1 ∧ m.mnt_passno ≠ 0) ∧
    ((fsck_all env).1.map (fun t => t.1)).Sorted (· ≤ ·) ∧
    (∀ t ∈ (fsck_all env).1, ∀ p : Int, 1 ≤ p → p < t.1 →
      (fsck env p).2 = FsckResult.proceed 0) := by
  have hpw : ([1, 2, 3, 4, 5, 6, 7, 8, 9] : List Int).Pairwise (· < ·) := by decide
  refine ⟨?_, fsck_all_go_sorted env _ hpw, ?_⟩
  · intro t ht
    obtain ⟨hp, hmem⟩ := fsck_all_go_mem env _ t ht
    have hrange : 1 ≤ t.1 ∧ t.1 ≤ 9 := by
      simp only [List.mem_cons, List.not_mem_nil, or_false] at hp
      omega
    obtain ⟨m, hm, he⟩ := fsck_mem env t.1 _ hmem
    obtain ⟨hpn, hnz⟩ := entryCheck_passno env t.1 m _ he
    exact ⟨hrange, m, hm, he, hpn, hnz⟩
  · intro t ht p h1p hplt
    obtain ⟨hp, _⟩ := fsck_all_go_mem env _ t ht
    have ht9 : t.1 ≤ 9 := by
      simp only [List.mem_cons, List.not_mem_nil, or_false] at hp
      omega
    have hpin : p ∈ ([1, 2, 3, 4, 5, 6, 7, 8, 9] : List Int) := by
      simp only [List.mem_cons, List.not_mem_nil, or_false]
      omega
    exact fsck_all_go_halt env _ hpw t ht p hpin hplt

/-- Claim C4 witness: with one clean entry at passno 3, the trace holds its
check at pass 3, and the halting property yields that pass 1 proceeded
with 0. -/
theorem fsck_all_pass_order_witness :
    (fsck fsckEnvClean 1).2 = FsckResult.proceed 0 :=
  (fsck_all_pass_order fsckEnvClean).2.2 (3, "/dev/sda1", 0) (by decide) 1
    (by decide) (by decide)

/-! ## Theorems about the bootstrap wait -/

/-- The bootstrap wait makes at most `cnt` polls and at most `cnt + 1`
invocations before it schedules `finalize`. -/
theorem bootstrap_worker_le (completed : Nat → Bool) :
    ∀ (c i : Nat), (bootstrap_worker completed i c).2 ≤ c ∧
      (bootstrap_worker completed i c).1 ≤ c + 1 := by
  intro c
  induction c with
  | zero =>
    intro i
    simp [bootstrap_worker]
  | succ c ih =>
    intro i
    by_cases hc : completed i
    · simp [bootstrap_worker, hc]
    · obtain ⟨ha, hb⟩ := ih (i + 1)
      have h2 : bootstrap_worker completed i (c + 1) =
          ((bootstrap_worker completed (i + 1) c).1 + 1,
           (bootstrap_worker completed (i + 1) c).2 + 1) := by
        simp [bootstrap_worker, hc]
      rw [h2]
      exact ⟨Nat.succ_le_succ ha, Nat.succ_le_succ hb⟩

/-- Claim C2: the bootstrap wait work item has a 100 ms period; a poll that
finds all bootstrap run/tasks completed schedules `finalize` at once; and
for every possible sequence of completion answers the worker started with
the hard cap counter `120 * 10` makes at most 1200 polls (at most 1201
invocations) before `finalize` is scheduled, so a run-kind service that
never completes cannot prevent `finalize`. -/
theorem bootstrap_wait_bounded (completed : Nat → Bool) :
    bootstrap_work_delay = 100 ∧
    (∀ i c, completed i = true → bootstrap_worker completed i (c + 1) = (1, 1)) ∧
    (bootstrap_worker completed 0 bootstrap_cnt).2 ≤ 1200 ∧
    (bootstrap_worker completed 0 bootstrap_cnt).1 ≤ 1201 := by
  refine ⟨rfl, ?_, ?_, ?_⟩
  · intro i c hc
    simp [bootstrap_worker, hc]
  · have h := (bootstrap_worker_le completed bootstrap_cnt 0).1
    simp only [bootstrap_cnt] at h ⊢
    omega
  · have h := (bootstrap_worker_le completed bootstrap_cnt 0).2
    simp only [bootstrap_cnt] at h ⊢
    omega

/-- Claim C2 witness: a first poll that answers "completed" makes the
worker schedule `finalize` on its first invocation after a single poll. -/
theorem bootstrap_wait_bounded_witness :
    bootstrap_worker (fun _ => true) 0 bootstrap_cnt = (1, 1) :=
  (bootstrap_wait_bounded (fun _ => true)).2.1 0 (bootstrap_cnt - 1) rfl

/-! ## Theorems about telinit mode -/

/-- Claim C8: with PID other than 1, the first positional argument drives
telinit mode: a leading digit requests a runlevel change via the control
client (`initctl -b runlevel <digit>`), `q`/`Q` requests a reload, `s`/`S`
requests single-user mode (`initctl -b runlevel s`); the mode exits with
the control client's code -- 0 on success -- and with 1 (nonzero) when no
valid command is given. -/
theorem telinit_mode_dispatch (sf : String → Int) (pid : Nat) (a : String)
    (req : Char) (rest : List Char) (hpid : pid ≠ 1) (ha : a.toList = req :: rest) :
    (isdigitCh req = true →
      finit_main sf pid (some a) = some (sf ("initctl -b runlevel " ++ req.toString))) ∧
    ((req = 'q' ∨ req = 'Q') →
      finit_main sf pid (some a) = some (sf "initctl -b reload")) ∧
    ((req = 's' ∨ req = 'S') →
      finit_main sf pid (some a) = some (sf ("initctl -b runlevel " ++ req.toString))) ∧
    (telinit (some a) = TelinitAct.usage1 → finit_main sf pid (some a) = some 1) ∧
    finit_main sf pid none = some 1 ∧
    (∀ c, telinit (some a) = TelinitAct.system c → sf c = 0 →
      finit_main sf pid (some a) = some 0) := by
  have hp : (pid != 1) = true := by simpa using hpid
  simp only [String.toList] at ha
  refine ⟨?_, ?_, ?_, ?_, ?_, ?_⟩
  · intro hd
    simp [finit_main, hp, telinit_exit, telinit, ha, hd]
  · intro h
    rcases h with h | h <;> subst h
    · have ht : telinit (some a) = TelinitAct.system "initctl -b reload" := by
        simp [telinit, ha, (by decide : isdigitCh 'q' = false)]
      simp [finit_main, hp, telinit_exit, ht]
    · have ht : telinit (some a) = TelinitAct.system "initctl -b reload" := by
        simp [telinit, ha, (by decide : isdigitCh 'Q' = false)]
      simp [finit_main, hp, telinit_exit, ht]
  · intro h
    rcases h with h | h <;> subst h
    · have ht : telinit (some a) =
          TelinitAct.system ("initctl -b runlevel " ++ Char.toString 's') := by
        simp [telinit, ha, (by decide : isdigitCh 's' = false),
          (by decide : ¬('s' = 'q')), (by decide : ¬('s' = 'Q'))]
      simp [finit_main, hp, telinit_exit, ht]
    · have ht : telinit (some a) =
          TelinitAct.system ("initctl -b runlevel " ++ Char.toString 'S') := by
        simp [telinit, ha, (by decide : isdigitCh 'S' = false),
          (by decide : ¬('S' = 'q')), (by decide : ¬('S' = 'Q'))]
      simp [finit_main, hp, telinit_exit, ht]
  · intro hu
    simp [finit_main, hp, telinit_exit, hu]
  · simp [finit_main, hp, telinit_exit, telinit]
  · intro c hc h0
    simp [finit_main, hp, telinit_exit, hc, h0]

/-- Claim C8 witness: `telinit q` from a non-PID-1 process issues a reload
and exits 0 when the control client succeeds. -/
theorem telinit_mode_dispatch_witness :
    finit_main (fun _ => (0 : Int)) 2 (some "q") = some 0 :=
  (telinit_mode_dispatch (fun _ => (0 : Int)) 2 "q" 'q' [] (by decide)
    (by decide)).2.1 (Or.inl rfl)
